import Mathlib

/-!
Verification development for the cr-SMPS package: a shallow embedding of the
CSV ingestion and normalization pipeline, the dataset aggregation logic, and
the heatmap time-range resolver, together with theorems settling the frozen
claims about their behaviour.

Source files embedded (paths relative to the repository root):
  src/cr_smps/core/smps_data.py
  src/cr_smps/core/smps_dataset.py
  src/cr_smps/io/reader.py
  src/cr_smps/io/joblib_io.py
  src/cr_smps/io/__init__.py
  src/cr_smps/analysis/plotting/plot_heatmap.py
-/

namespace CrSmps

/-! ## Python runtime basics

Exceptions that the embedded code paths can raise, and a small universe of
Python scalar values with Python truthiness, as needed by the code under
verification. -/

inductive PyErr where
  | keyError
  | valueError
  | indexError
  | importError
  deriving DecidableEq, Repr

inductive PyVal where
  | intv : Int → PyVal
  | strv : String → PyVal
  | pynone : PyVal
  deriving DecidableEq, Repr

/-- Python truthiness of a scalar value: 0, the empty string and None are
falsy, everything else is truthy. -/
def pyTruthy : PyVal → Bool
  | .intv n => n != 0
  | .strv s => s != ""
  | .pynone => false

/-- Lookup in a Python dict modelled as an association list
(first binding wins; the embedded code never rebinds a key twice). -/
def dictGet (md : List (String × PyVal)) (k : String) : Option PyVal :=
  (md.find? (fun p => p.1 == k)).map (fun p => p.2)

def NUM_SAMPLES_KEY : String := "Number of Samples"

/-! ## SMPSData.__len__  (src/cr_smps/core/smps_data.py, lines 34-45)

    if self.metadata["Number of Samples"]:
        return self.metadata["Number of Samples"]
    else:
        return 0

The subscript raises KeyError when the key is absent; otherwise the value is
returned if truthy, and the literal 0 if falsy. -/

def SMPSData_len (metadata : List (String × PyVal)) : Except PyErr PyVal :=
  match dictGet metadata NUM_SAMPLES_KEY with
  | Option.none => .error .keyError
  | some v => if pyTruthy v then .ok v else .ok (.intv 0)

/-! ## Records and SMPSDataset.sort_by_time
(src/cr_smps/core/smps_dataset.py, lines 57-84)

A parsed record always carries metadata["Start Time"], metadata["End Time"]
(reader.py lines 129-130 set them unconditionally) and the source filename,
so the aggregate sort models them as typed fields.  Timestamps are pandas
datetime64[ns] values, modelled as integer nanoseconds since the epoch. -/

structure SRecord where
  startTime : Int
  endTime : Int
  filename : String
  deriving DecidableEq, Repr

/-- Comparison used by list.sort(key=lambda x: x.metadata["Start Time"]):
a stable ascending sort by the start time. -/
def timeLe (a b : SRecord) : Bool := decide (a.startTime ≤ b.startTime)

/-- One overlap warning printed by sort_by_time: it names both source files
and the two offending timestamps (lines 80-84). -/
structure OverlapWarning where
  prevFile : String
  currFile : String
  prevEnd : Int
  currStart : Int
  deriving DecidableEq, Repr

/-- The adjacent-pair walk of sort_by_time (lines 74-84): for every i ≥ 1,
compare record i-1 End Time with record i Start Time and warn on overlap. -/
def overlapWarnings : List SRecord → List OverlapWarning
  | a :: b :: rest =>
      (if a.endTime ≥ b.startTime then
        [⟨a.filename, b.filename, a.endTime, b.startTime⟩]
      else []) ++ overlapWarnings (b :: rest)
  | _ => []

/-- SMPSDataset.sort_by_time: early return when fewer than 2 records,
otherwise stable in-place sort by Start Time followed by the overlap scan.
Returns the new record order and the warnings printed. -/
def sortByTime (l : List SRecord) : List SRecord × List OverlapWarning :=
  if l.length < 2 then (l, [])
  else
    let s := l.mergeSort timeLe
    (s, overlapWarnings s)

/-! ## Time-zone reconciliation
(src/cr_smps/analysis/plotting/plot_heatmap.py, lines 74-126)

ZoneInfo objects compare equal exactly when they denote the same IANA key,
so a zone is modelled as its key string; a record with no zone is None. -/

abbrev TZ := String

/-- check_SMPSDataset_time_zone (lines 74-98).  On an empty record list the
generator all() is vacuously true and zones[0] raises IndexError. -/
def checkSMPSDatasetTimeZone (zones : List (Option TZ)) : Except PyErr Int :=
  if zones.all (fun z => z.isSome) then
    match zones with
    | [] => .error .indexError
    | z0 :: _ =>
      if zones.all (fun z => z == z0) then .ok 2 else .ok 1
  else
    if zones.all (fun z => z.isNone) then .ok (-1) else .ok 0

/-- The zone-reconciliation phase of _plot_heatmap (lines 100-126): classify
the dataset, raise ValueError on the fatal states, and otherwise produce the
output zone actually in effect for the rest of the resolver. -/
def resolveOutputTimeZone (zones : List (Option TZ)) (output : Option TZ) :
    Except PyErr (Option TZ) :=
  match checkSMPSDatasetTimeZone zones with
  | .error e => .error e
  | .ok status =>
    if status = 0 then .error .valueError
    else
      match output with
      | some z =>
        if status < 0 then .error .valueError else .ok (some z)
      | Option.none =>
        if status = 2 then
          match zones with
          | [] => .error .indexError
          | z0 :: _ => .ok z0
        else if status = 1 then .error .valueError
        else .ok Option.none

/-! ## Timestamps

pandas timestamps are 64-bit nanosecond counts; a timezone-naive timestamp
is modelled as its integer nanosecond value.  Lean integer division and
modulus are Euclidean, which on a positive divisor agrees with the floor
semantics of Python and pandas field extraction. -/

def NS_PER_DAY : Int := 86400000000000

/-- Timestamp.date() as an epoch-day count. -/
def tsDate (t : Int) : Int := t / NS_PER_DAY

/-- Nanoseconds since local midnight. -/
def tsTod (t : Int) : Int := t % NS_PER_DAY

def tsHour (t : Int) : Int := tsTod t / 3600000000000
def tsMinute (t : Int) : Int := tsTod t / 60000000000 % 60
def tsSecond (t : Int) : Int := tsTod t / 1000000000 % 60
def tsMicrosecond (t : Int) : Int := tsTod t / 1000 % 1000000

/-- pd.Timestamp.combine(date, time). -/
def combineDayTime (day todNs : Int) : Int := day * NS_PER_DAY + todNs

/-- pd.Timestamp.min is 1677-09-21 00:12:43.145224193; its .time() truncates
to microseconds, giving 00:12:43.145224 as nanoseconds since midnight. -/
def TIMESTAMP_MIN_TIME_NS : Int := 763145224000

/-- pd.Timestamp.max is 2262-04-11 23:47:16.854775807; its .time() truncates
to microseconds, giving 23:47:16.854775 as nanoseconds since midnight. -/
def TIMESTAMP_MAX_TIME_NS : Int := 85636854775000

/-! ## Time-range selector resolution
(src/cr_smps/analysis/plotting/plot_heatmap.py, lines 137-236)

The selector is None, a single instant, a two-element range, or anything
else; instants arrive as naive wall-clock timestamps (pd.to_datetime of the
caller input).  The resolved row filter is described by a RowMask; the
claims only evaluate masks on the no-output-zone path, where the localize
and convert branches of mask_func are skipped, so mask evaluation is
defined for naive row indices. -/

inductive TimeRange where
  | allData : TimeRange
  | single : Int → TimeRange
  | span : Int → Int → TimeRange
  | badShape : TimeRange
  deriving DecidableEq, Repr

inductive RowMask where
  | allRows : RowMask
  | sameDate : Int → RowMask
  | interval : Int → Int → RowMask
  deriving DecidableEq, Repr

/-- Selector dispatch (lines 137-236), after the output zone has been
resolved.  For a two-element range whose endpoints all have zero
hour/minute/second/microsecond fields, the code rebuilds the bounds with
pd.Timestamp.combine(date, pd.Timestamp.min.time() / max.time()). -/
def resolveSelector (outZone : Option TZ) (sel : TimeRange) :
    Except PyErr (Option TZ × RowMask) :=
  match sel with
  | .allData => .ok (outZone, .allRows)
  | .single dt => .ok (outZone, .sameDate (tsDate dt))
  | .span s e =>
    if s ≥ e then .error .valueError
    else
      if tsHour s = 0 ∧ tsMinute s = 0 ∧ tsSecond s = 0 ∧ tsMicrosecond s = 0
          ∧ tsHour e = 0 ∧ tsMinute e = 0 ∧ tsSecond e = 0
          ∧ tsMicrosecond e = 0 then
        .ok (outZone,
          .interval (combineDayTime (tsDate s) TIMESTAMP_MIN_TIME_NS)
                    (combineDayTime (tsDate e) TIMESTAMP_MAX_TIME_NS))
      else
        .ok (outZone, .interval s e)
  | .badShape => .error .valueError

/-- Whether a naive row instant passes the resolved mask (the mask_func
bodies with output_time_zone = None, lines 146-147, 174-183, 222-231):
all rows pass, the normalized dates are equal, or the instant lies in the
inclusive interval. -/
def maskPasses : RowMask → Int → Bool
  | .allRows, _ => true
  | .sameDate d, t => tsDate t == d
  | .interval s e, t => decide (s ≤ t) && decide (t ≤ e)

/-- The resolver portion of _plot_heatmap: the zone-reconciliation phase
runs first (lines 100-126) and the selector is dispatched afterwards. -/
def plotHeatmapResolve (zones : List (Option TZ)) (output : Option TZ)
    (sel : TimeRange) : Except PyErr (Option TZ × RowMask) :=
  match resolveOutputTimeZone zones output with
  | .error e => .error e
  | .ok oz => resolveSelector oz sel

/-! ## Diameter-bin column range and scan metadata columns
(src/cr_smps/io/reader.py, lines 134-172)

line52 is the 52nd file line read as a flat label list with the timestamp
position popped, so it aligns positionally with cols, the data-table column
names after the timestamp column became the index.  Python slice semantics
(negative stop counts from the end) are embedded as pySlice. -/

/-- Normalize a Python slice endpoint against a list length. -/
def pyIdxNorm (len : Nat) (i : Int) : Nat :=
  if i < 0 then (max (i + len) 0).toNat else min i.toNat len

/-- Python list slicing l[start:stop] with integer endpoints. -/
def pySlice {α : Type} (l : List α) (start stop : Int) : List α :=
  (l.take (pyIdxNorm l.length stop)).drop (pyIdxNorm l.length start)

def CONC_SENTINEL : String := "Particle Concentration by Midpoint (nm)"
def RAW_SENTINEL : String := "Raw Concentration by Midpoint (nm)"
def RAWTIME_COL : String := "Raw Data - Time (s)"

/-- The diameter-bin slice of reader.py lines 143-153:
start_idx = line52.index(CONC_SENTINEL)  (ValueError if absent);
end_idx = index of RAW_SENTINEL in line52 if present, else index of
RAWTIME_COL in cols minus one if present, else -1; result is
cols[start_idx:end_idx]. -/
def diameterColumnRange (line52 cols : List String) :
    Except PyErr (List String) :=
  match line52.findIdx? (fun c => c == CONC_SENTINEL) with
  | Option.none => .error .valueError
  | some startIdx =>
    let endIdx : Int :=
      match line52.findIdx? (fun c => c == RAW_SENTINEL) with
      | some i => (i : Int)
      | Option.none =>
        match cols.findIdx? (fun c => c == RAWTIME_COL) with
        | some j => (j : Int) - 1
        | Option.none => -1
    .ok (pySlice cols (startIdx : Int) endIdx)

/-- The claim side of C4, stated from the spec words: when neither raw-data
sentinel is present the diameter range extends from the start boundary
through the last column inclusive, that is cols[start_idx:len(cols)]. -/
def diameterColumnRangeClaim (line52 cols : List String) :
    Except PyErr (List String) :=
  match line52.findIdx? (fun c => c == CONC_SENTINEL) with
  | Option.none => .error .valueError
  | some startIdx =>
    let endIdx : Int :=
      match line52.findIdx? (fun c => c == RAW_SENTINEL) with
      | some i => (i : Int)
      | Option.none =>
        match cols.findIdx? (fun c => c == RAWTIME_COL) with
        | some j => (j : Int) - 1
        | Option.none => (cols.length : Int)
    .ok (pySlice cols (startIdx : Int) endIdx)

/-- The scan-metadata slice of reader.py line 172:
inst.sample_metadata = df.iloc[:, 0 : start_idx - 1]. -/
def scanMetadataColumns (line52 cols : List String) :
    Except PyErr (List String) :=
  match line52.findIdx? (fun c => c == CONC_SENTINEL) with
  | Option.none => .error .valueError
  | some startIdx => .ok (pySlice cols 0 ((startIdx : Int) - 1))

/-- The claim side of C5, stated from the spec words: all data columns
strictly before the diameter-bin start boundary, cols[0:start_idx]. -/
def scanMetadataColumnsClaim (line52 cols : List String) :
    Except PyErr (List String) :=
  match line52.findIdx? (fun c => c == CONC_SENTINEL) with
  | Option.none => .error .valueError
  | some startIdx => .ok (pySlice cols 0 (startIdx : Int))

/-- A data table, abstracted to its row index (scan start instants) and its
column names; the two per-record tables are column selections of the same
parsed frame, so they share its row index. -/
structure DFrame where
  rowIndex : List Int
  colNames : List String
  deriving DecidableEq, Repr

/-- Construction of sample_data and sample_metadata from the parsed frame
(reader.py lines 141-172).  keep abstracts the per-file narrowing predicate
lower_bound <= float(col) <= upper_bound of lines 162-164, which depends on
cell values not modelled here; both tables retain every row of df. -/
def buildRecordTables (line52 : List String) (df : DFrame)
    (keep : String → Bool) : Except PyErr (DFrame × DFrame) :=
  match diameterColumnRange line52 df.colNames with
  | .error e => .error e
  | .ok dcols =>
    match scanMetadataColumns line52 df.colNames with
    | .error e => .error e
    | .ok mcols =>
      .ok (⟨df.rowIndex, dcols.filter keep⟩, ⟨df.rowIndex, mcols⟩)

/-! ## Directory discovery
(src/cr_smps/io/reader.py, lines 216-238 and 259-287)

glob.glob(dir_path + "*SMPS*.csv") is fnmatch of the basename against the
pattern, except that the leading * wildcard never matches a name starting
with a dot (hidden files).  The matches are then sorted; every candidate
path shares the dir_path prefix, so sorting full paths orders them exactly
by basename.  Names are modelled as character lists with the Mathlib
lexicographic order, which is the code-point order Python uses. -/

/-- fnmatch for patterns built from literal characters and the * wildcard
(the only constructs in the pattern the reader uses). -/
def fnmatchChars : List Char → List Char → Bool
  | [], s => s.isEmpty
  | p :: ps, [] => if p = '*' then fnmatchChars ps [] else false
  | p :: ps, c :: s1 =>
    if p = '*' then fnmatchChars ps (c :: s1) || fnmatchChars (p :: ps) s1
    else p == c && fnmatchChars ps s1
  termination_by p s => (s.length, p.length)

def SMPS_PATTERN : List Char := "*SMPS*.csv".toList

/-- The characters of the substring identifying an SMPS export. -/
def SMPS_CHARS : List Char := ['S', 'M', 'P', 'S']

/-- The characters of the CSV filename extension. -/
def CSV_CHARS : List Char := ['.', 'c', 's', 'v']

/-- Whether glob.glob(dir_path + "*SMPS*.csv") selects a file of the given
basename: hidden names are never matched by the leading * wildcard. -/
def globMatchSMPS (name : List Char) : Bool :=
  match name with
  | c :: cs => if c = '.' then false else fnmatchChars SMPS_PATTERN (c :: cs)
  | [] => fnmatchChars SMPS_PATTERN []

/-- Model of _SMPSData_list_from_dir, lines 216-238: glob then sort; one
record is parsed per selected file in sorted order. -/
def listRecordNames (names : List (List Char)) : List (List Char) :=
  (names.filter globMatchSMPS).mergeSort (fun a b => decide (a ≤ b))

/-- The value stored in an smpsdata_list attribute: either an actual Python
list of records or, as _SMPSDataset_from_dir line 286 produces, a nested
SMPSDataset (modelled by the value of its own smpsdata_list attribute). -/
inductive SmpsListVal (R : Type) where
  | ofList : List R → SmpsListVal R
  | ofDataset : SmpsListVal R → SmpsListVal R
  deriving Repr

/-- len() through SMPSDataset.__len__, which recurses into len of the
smpsdata_list attribute (smps_dataset.py lines 33-41). -/
def SmpsListVal.pyLen {R : Type} : SmpsListVal R → Nat
  | .ofList l => l.length
  | .ofDataset v => v.pyLen

/-- Indexing through SMPSDataset.__getitem__ (smps_dataset.py lines 43-55). -/
def SmpsListVal.pyGet {R : Type} : SmpsListVal R → Nat → Option R
  | .ofList l, i => l.get? i
  | .ofDataset v, i => v.pyGet i

/-- Model of SMPSDataset.read_from_dir and _SMPSDataset_from_dir (reader.py
lines 259-287): the records parsed from the sorted glob matches, wrapped once more
because line 286 assigns the SMPSDataset built by
_SMPSDataset_from_SMPSData_list to the smpsdata_list attribute.  parse
abstracts _SMPSData_from_csv, applied once per file. -/
def SMPSDataset_read_from_dir {R : Type} (parse : List Char → R)
    (names : List (List Char)) : SmpsListVal R :=
  .ofDataset (.ofList ((listRecordNames names).map parse))

/-- The file-selection predicate as claim C1 states it: the name contains
the substring SMPS and ends with the extension .csv. -/
def claimMatchesSMPS (name : List Char) : Bool :=
  decide (SMPS_CHARS <:+: name) && decide (CSV_CHARS <:+ name)

/-- Whether a basename is hidden (starts with a dot), the case the glob
wildcard excludes. -/
def isHiddenName (name : List Char) : Bool :=
  match name with
  | c :: _ => c = '.'
  | [] => false

/-- The file-selection predicate as amended: a non-hidden name that contains
SMPS and ends with .csv. -/
def amendedMatchSMPS (name : List Char) : Bool :=
  !isHiddenName name && claimMatchesSMPS name

/-! ## Persistence round trip
(src/cr_smps/core/smps_dataset.py lines 334-362, src/cr_smps/io/joblib_io.py,
src/cr_smps/io/__init__.py)

A from-import binds a name only if the target module defines it, and raises
ImportError otherwise.  The names joblib_io.py actually defines are listed
verbatim from its source. -/

def joblib_io_defined_names : List String :=
  ["joblib", "SMPSDataset", "save_SMPSDataset_to_file",
   "load_SMPSDataset_from_file"]

/-- from ..io.joblib_io import name. -/
def importFromJoblibIO (name : String) : Except PyErr Unit :=
  if joblib_io_defined_names.contains name then .ok () else .error .importError

def SAVE_IMPORT_NAME : String := "_save_SMPSDataset_to_file"
def LOAD_IMPORT_NAME : String := "_load_SMPSDataset_from_file"

/-- The import executed first by SMPSDataset.save_to_file (line 335). -/
def SMPSDataset_save_to_file_import : Except PyErr Unit :=
  importFromJoblibIO SAVE_IMPORT_NAME

/-- The import executed first by SMPSDataset.load_from_file (line 350). -/
def SMPSDataset_load_from_file_import : Except PyErr Unit :=
  importFromJoblibIO LOAD_IMPORT_NAME

/-! ## Zone-state classifiers, in the vocabulary of the claims -/

/-- Some records carry a zone and others do not. -/
def zoneStateMixed (zones : List (Option TZ)) : Bool :=
  zones.any (fun z => z.isSome) && zones.any (fun z => z.isNone)

/-- Every record is zone-naive. -/
def zoneStateAllNaive (zones : List (Option TZ)) : Bool :=
  zones.all (fun z => z.isNone)

/-- All records share one identical zone. -/
def zoneStateUniform (zones : List (Option TZ)) : Bool :=
  zones.all (fun z => z.isSome)
    && zones.all (fun z => z == zones.headD Option.none)

/-- All records carry zones but they differ. -/
def zoneStateDiffering (zones : List (Option TZ)) : Bool :=
  zones.all (fun z => z.isSome)
    && !(zones.all (fun z => z == zones.headD Option.none))

/-- The claim side of C2, stated from the spec words: a midnight-to-midnight
range expands to the full start day through the full end day, that is
start day 00:00:00 through end day 23:59:59.999999 inclusive. -/
def claimFullDayWindow (s e : Int) : RowMask :=
  .interval (combineDayTime (tsDate s) 0)
            (combineDayTime (tsDate e) 86399999999000)

/-! ## Claim theorems -/

/-- Claim C9: len() on a Record raises KeyError whenever the metadata
mapping has no Number of Samples entry (a freshly constructed Record has an
empty mapping), and yields 0 whenever the stored value is falsy. -/
theorem smps_len_spec (metadata : List (String × PyVal)) :
    (dictGet metadata NUM_SAMPLES_KEY = Option.none →
      SMPSData_len metadata = .error .keyError)
    ∧ (∀ v : PyVal, dictGet metadata NUM_SAMPLES_KEY = some v →
        pyTruthy v = false → SMPSData_len metadata = .ok (.intv 0))
    ∧ SMPSData_len [] = .error .keyError := by
  refine ⟨?_, ?_, rfl⟩
  · intro h
    unfold SMPSData_len
    rw [h]
  · intro v hv ht
    unfold SMPSData_len
    rw [hv]
    simp [ht]

/-- Witness for C9 at concrete inputs: a stored falsy count of 0 yields 0,
and the empty metadata of a fresh Record raises KeyError. -/
theorem smps_len_spec_witness :
    SMPSData_len [(NUM_SAMPLES_KEY, PyVal.intv 0)] = .ok (.intv 0)
    ∧ SMPSData_len [] = .error .keyError := by
  refine ⟨?_, (smps_len_spec []).2.2⟩
  exact (smps_len_spec [(NUM_SAMPLES_KEY, PyVal.intv 0)]).2.1
    (PyVal.intv 0) rfl rfl

/-- Claim C10: resolving any time range over an empty aggregate raises an
uncaught IndexError in the zone classification, because the empty zone list
vacuously satisfies the all-have-zone check and zones[0] is then read; no
selector shape or output-zone argument avoids it. -/
theorem empty_dataset_resolve_index_error (output : Option TZ)
    (sel : TimeRange) :
    (List.all [] (fun z : Option TZ => z.isSome)) = true
    ∧ checkSMPSDatasetTimeZone [] = .error .indexError
    ∧ plotHeatmapResolve [] output sel = .error .indexError :=
  ⟨rfl, rfl, rfl⟩

/-- Claim C2, settled against the code: for the all-midnight range
(2024-01-01, 2024-01-03) with naive records and no output zone, the code
resolves the window with pd.Timestamp.min.time() and pd.Timestamp.max.time(),
producing 2024-01-01 00:12:43.145224 through 2024-01-03 23:47:16.854775
(nanosecond epoch values below), so the row at 2024-01-01T00:00:00 and the
row at 2024-01-03T23:59:59 both fail the resolved mask even though the
claimed full-day window passes them. -/
theorem range_midnight_window_bug :
    plotHeatmapResolve [Option.none] Option.none
        (.span (19723 * NS_PER_DAY) (19725 * NS_PER_DAY))
      = .ok (Option.none, .interval 1704067963145224000 1704325636854775000)
    ∧ maskPasses (.interval 1704067963145224000 1704325636854775000)
        (19723 * NS_PER_DAY) = false
    ∧ maskPasses (claimFullDayWindow (19723 * NS_PER_DAY) (19725 * NS_PER_DAY))
        (19723 * NS_PER_DAY) = true
    ∧ maskPasses (.interval 1704067963145224000 1704325636854775000)
        (19725 * NS_PER_DAY + 86399000000000) = false
    ∧ maskPasses (claimFullDayWindow (19723 * NS_PER_DAY) (19725 * NS_PER_DAY))
        (19725 * NS_PER_DAY + 86399000000000) = true := by
  refine ⟨rfl, ?_, ?_, ?_, ?_⟩ <;> decide

/-- Claim C4, settled against the code: when neither raw-data sentinel is
present, end_idx is set to -1 and the Python slice cols[start_idx:-1]
excludes the final column, so the identified diameter range stops one short
of the last column, unlike the claimed inclusive fallback (the comparison
definition built from the spec words keeps the last column). -/
theorem diameter_fallback_drops_last_column :
    diameterColumnRange ["h0", CONC_SENTINEL, "x", "y"]
        ["Meta1", "10.4", "11.1", "12.0"]
      = .ok ["10.4", "11.1"]
    ∧ diameterColumnRangeClaim ["h0", CONC_SENTINEL, "x", "y"]
        ["Meta1", "10.4", "11.1", "12.0"]
      = .ok ["10.4", "11.1", "12.0"] := ⟨rfl, rfl⟩

/-- Claim C8, settled against the code: the statement
from ..io.joblib_io import _save_SMPSDataset_to_file executed by
SMPSDataset.save_to_file (and the matching load import) raises ImportError,
because joblib_io.py defines the functions without the leading underscore;
no save/load round trip can begin. -/
theorem save_load_roundtrip_import_error :
    SMPSDataset_save_to_file_import = .error .importError
    ∧ SMPSDataset_load_from_file_import = .error .importError
    ∧ joblib_io_defined_names.contains SAVE_IMPORT_NAME = false
    ∧ joblib_io_defined_names.contains LOAD_IMPORT_NAME = false :=
  ⟨rfl, rfl, rfl, rfl⟩

/-- Claim C3: over a nonempty aggregate the zone-reconciliation phase raises
a ValueError exactly in these states: a mix of zoned and naive records
(regardless of the output-zone argument); differing zones with no explicit
output zone; an explicit output zone while every record is naive.  Any error
it raises on a nonempty aggregate is that configuration ValueError, and in
the uniform-zone state with no explicit output zone it proceeds adopting the
shared zone as the default output zone. -/
theorem resolve_zone_error_spec (zones : List (Option TZ)) (hne : zones ≠ [])
    (output : Option TZ) :
    (resolveOutputTimeZone zones output = .error .valueError ↔
      (zoneStateMixed zones = true
        ∨ (zoneStateDiffering zones = true ∧ output = Option.none)
        ∨ (zoneStateAllNaive zones = true ∧ output.isSome = true)))
    ∧ (∀ er : PyErr, resolveOutputTimeZone zones output = .error er →
        er = .valueError)
    ∧ (zoneStateUniform zones = true → output = Option.none →
        resolveOutputTimeZone zones output = .ok (zones.headD Option.none)) := by
  obtain ⟨z0, zs, rfl⟩ : ∃ z0 zs, zones = z0 :: zs := by
    cases zones with
    | nil => exact absurd rfl hne
    | cons a l => exact ⟨a, l, rfl⟩
  by_cases h1 : (z0 :: zs).all (fun z => z.isSome) = true
  · have hz0 : z0.isSome = true :=
      List.all_eq_true.mp h1 z0 (List.mem_cons_self z0 zs)
    have hnonaive : zoneStateAllNaive (z0 :: zs) = false := by
      unfold zoneStateAllNaive
      refine List.all_eq_false.mpr ⟨z0, List.mem_cons_self z0 zs, ?_⟩
      cases z0 <;> simp_all
    have hnomix : zoneStateMixed (z0 :: zs) = false := by
      unfold zoneStateMixed
      have : (z0 :: zs).any (fun z => z.isNone) = false := by
        refine List.any_eq_false.mpr (fun z hz => ?_)
        have := List.all_eq_true.mp h1 z hz
        cases z <;> simp_all
      simp [this]
    by_cases h2 : (z0 :: zs).all (fun z => z == z0) = true
    · have huni : zoneStateUniform (z0 :: zs) = true := by
        unfold zoneStateUniform
        simp only [List.headD_cons]
        simp [h1, h2]
      have hdiff : zoneStateDiffering (z0 :: zs) = false := by
        unfold zoneStateDiffering
        simp only [List.headD_cons]
        simp [h2]
      refine ⟨?_, ?_, ?_⟩
      · rw [hnomix, hdiff, hnonaive]
        simp only [resolveOutputTimeZone, checkSMPSDatasetTimeZone, h1, h2]
        cases output <;> simp
      · intro er
        simp only [resolveOutputTimeZone, checkSMPSDatasetTimeZone, h1, h2]
        cases output <;> simp
      · intro _ ho
        subst ho
        simp only [resolveOutputTimeZone, checkSMPSDatasetTimeZone, h1, h2]
        simp [List.headD_cons]
    · have huni : zoneStateUniform (z0 :: zs) = false := by
        unfold zoneStateUniform
        simp only [List.headD_cons]
        simp [h2]
      have hdiff : zoneStateDiffering (z0 :: zs) = true := by
        unfold zoneStateDiffering
        simp only [List.headD_cons]
        simp [h1, h2]
      have h2f : (z0 :: zs).all (fun z => z == z0) = false :=
        Bool.not_eq_true _ ▸ eq_false_of_ne_true h2
      refine ⟨?_, ?_, ?_⟩
      · rw [hnomix, hdiff, hnonaive]
        simp only [resolveOutputTimeZone, checkSMPSDatasetTimeZone, h1, h2f]
        cases output <;> simp
      · intro er
        simp only [resolveOutputTimeZone, checkSMPSDatasetTimeZone, h1, h2f]
        cases output <;> simp <;> exact fun h => h.symm
      · intro hu
        rw [huni] at hu
        exact absurd hu (by simp)
  · have h1f : (z0 :: zs).all (fun z => z.isSome) = false :=
      eq_false_of_ne_true h1
    have huni : zoneStateUniform (z0 :: zs) = false := by
      unfold zoneStateUniform
      simp [h1f]
    have hdiff : zoneStateDiffering (z0 :: zs) = false := by
      unfold zoneStateDiffering
      simp [h1f]
    by_cases h2 : (z0 :: zs).all (fun z => z.isNone) = true
    · have hnaive : zoneStateAllNaive (z0 :: zs) = true := h2
      have hnomix : zoneStateMixed (z0 :: zs) = false := by
        unfold zoneStateMixed
        have : (z0 :: zs).any (fun z => z.isSome) = false := by
          refine List.any_eq_false.mpr (fun z hz => ?_)
          have := List.all_eq_true.mp h2 z hz
          cases z <;> simp_all
        simp [this]
      refine ⟨?_, ?_, ?_⟩
      · rw [hnomix, hdiff, hnaive]
        simp only [resolveOutputTimeZone, checkSMPSDatasetTimeZone, h1f, h2]
        cases output <;> simp
      · intro er
        simp only [resolveOutputTimeZone, checkSMPSDatasetTimeZone, h1f, h2]
        cases output <;> simp <;> exact fun h => h.symm
      · intro hu
        rw [huni] at hu
        exact absurd hu (by simp)
    · have h2f : (z0 :: zs).all (fun z => z.isNone) = false :=
        eq_false_of_ne_true h2
      have hmix : zoneStateMixed (z0 :: zs) = true := by
        unfold zoneStateMixed
        obtain ⟨za, hza, hpa⟩ := List.all_eq_false.mp h1f
        obtain ⟨zb, hzb, hpb⟩ := List.all_eq_false.mp h2f
        have ha : (z0 :: zs).any (fun z => z.isNone) = true :=
          List.any_eq_true.mpr ⟨za, hza, by cases za <;> simp_all⟩
        have hb : (z0 :: zs).any (fun z => z.isSome) = true :=
          List.any_eq_true.mpr ⟨zb, hzb, by cases zb <;> simp_all⟩
        simp [ha, hb]
      refine ⟨?_, ?_, ?_⟩
      · rw [hmix]
        simp only [resolveOutputTimeZone, checkSMPSDatasetTimeZone, h1f, h2f]
        simp
      · intro er
        simp only [resolveOutputTimeZone, checkSMPSDatasetTimeZone, h1f, h2f]
        simp
        exact fun h => h.symm
      · intro hu
        rw [huni] at hu
        exact absurd hu (by simp)

def UTC_Z : TZ := "UTC"
def NY_Z : TZ := "America/New_York"

/-- Witness for C3 at concrete inputs: two records both tagged UTC resolve
without raising and adopt UTC as the output zone, and two records tagged
UTC and America/New_York with no explicit output zone raise the
configuration ValueError. -/
theorem resolve_zone_error_spec_witness :
    resolveOutputTimeZone [some UTC_Z, some UTC_Z] Option.none
      = .ok (some UTC_Z)
    ∧ resolveOutputTimeZone [some UTC_Z, some NY_Z] Option.none
      = .error .valueError := by
  constructor
  · exact (resolve_zone_error_spec [some UTC_Z, some UTC_Z] (by simp)
      Option.none).2.2 (by decide) rfl
  · exact (resolve_zone_error_spec [some UTC_Z, some NY_Z] (by simp)
      Option.none).1.mpr (Or.inr (Or.inl ⟨by decide, rfl⟩))

/-- A Python slice with start 0 and a nonnegative stop is a take. -/
theorem pySlice_zero_nonneg {α : Type} (l : List α) (k : Int) (hk : 0 ≤ k) :
    pySlice l 0 k = l.take k.toNat := by
  unfold pySlice pyIdxNorm
  have hk2 : ¬ (k < 0) := not_lt.mpr hk
  have h00 : ¬ ((0 : Int) < 0) := by simp
  rw [if_neg hk2, if_neg h00, Int.toNat_zero,
    min_eq_left (Nat.zero_le _), List.drop_zero]
  rcases le_or_lt k.toNat l.length with h | h
  · rw [min_eq_left h]
  · rw [min_eq_right (le_of_lt h), List.take_of_length_le (le_refl _),
      List.take_of_length_le (le_of_lt h)]

/-- Claim C5, counterexample: with the diameter-bin boundary at position 3
of the aligned label list, the code stores df.iloc[:, 0:2] as scan metadata,
dropping column C even though C sits strictly before the boundary; the
comparison definition built from the spec words keeps all three. -/
theorem scan_metadata_drops_boundary_neighbor :
    scanMetadataColumns ["m0", "m1", "m2", CONC_SENTINEL, "z"]
        ["A", "B", "C", "10.4", "11.1"]
      = .ok ["A", "B"]
    ∧ scanMetadataColumnsClaim ["m0", "m1", "m2", CONC_SENTINEL, "z"]
        ["A", "B", "C", "10.4", "11.1"]
      = .ok ["A", "B", "C"]
    ∧ (["A", "B"] : List String) ≠ ["A", "B", "C"] :=
  ⟨rfl, rfl, by simp⟩

/-- Claim C5 as amended: scan_metadata_table consists of the data columns at
positions strictly before one less than the diameter-bin start boundary,
that is all pre-boundary columns except the last one (the timestamp column
is already the row index and not among the data columns), and it keeps the
parsed frame's row index, so it stays aligned row-for-row with
sample_table. -/
theorem scan_metadata_amended (line52 : List String) (df : DFrame)
    (keep : String → Bool) (startIdx : Nat)
    (hfind : line52.findIdx? (fun c => c == CONC_SENTINEL) = some startIdx)
    (hs : 1 ≤ startIdx) :
    scanMetadataColumns line52 df.colNames
      = .ok (df.colNames.take (startIdx - 1))
    ∧ ∀ st mt : DFrame, buildRecordTables line52 df keep = .ok (st, mt) →
        mt.rowIndex = st.rowIndex
        ∧ mt.colNames = df.colNames.take (startIdx - 1) := by
  have hmeta : scanMetadataColumns line52 df.colNames
      = .ok (df.colNames.take (startIdx - 1)) := by
    unfold scanMetadataColumns
    rw [hfind]
    dsimp only
    have h0 : (0 : Int) ≤ (startIdx : Int) - 1 := by omega
    rw [pySlice_zero_nonneg df.colNames ((startIdx : Int) - 1) h0]
    have hte : ((startIdx : Int) - 1).toNat = startIdx - 1 := by omega
    rw [hte]
  refine ⟨hmeta, ?_⟩
  intro st mt hbuild
  unfold buildRecordTables at hbuild
  rw [hmeta] at hbuild
  cases hdio : diameterColumnRange line52 df.colNames with
  | error e => rw [hdio] at hbuild; exact absurd hbuild (by simp)
  | ok dcols =>
    rw [hdio] at hbuild
    simp only [Except.ok.injEq, Prod.mk.injEq] at hbuild
    obtain ⟨hst, hmt⟩ := hbuild
    subst hst
    subst hmt
    exact ⟨rfl, rfl⟩

/-- Witness for the amended C5 at a concrete parsed frame: the boundary sits
at position 3 and scan metadata is columns A and B, sharing the row index
with the sample table. -/
theorem scan_metadata_amended_witness :
    scanMetadataColumns ["m0", "m1", "m2", CONC_SENTINEL, "z"]
        (DFrame.mk [100, 200] ["A", "B", "C", "10.4", "11.1"]).colNames
      = .ok ["A", "B"] := by
  have h := scan_metadata_amended ["m0", "m1", "m2", CONC_SENTINEL, "z"]
    (DFrame.mk [100, 200] ["A", "B", "C", "10.4", "11.1"])
    (fun _ => true) 3 (by decide) (by decide)
  exact h.1

/-! ## Lemmas about sort_by_time -/

theorem timeLe_trans : ∀ a b c : SRecord, timeLe a b → timeLe b c → timeLe a c := by
  intro a b c h1 h2
  simp only [timeLe, decide_eq_true_eq] at *
  omega

theorem timeLe_total : ∀ a b : SRecord, timeLe a b || timeLe b a := by
  intro a b
  simp only [timeLe]
  by_cases h : a.startTime ≤ b.startTime
  · simp [h]
  · simp [le_of_lt (lt_of_not_le h)]

/-- The record order produced by sort_by_time is the stable merge sort by
Start Time, also when the early return for short lists fires. -/
theorem sortByTime_fst (l : List SRecord) :
    (sortByTime l).1 = l.mergeSort timeLe := by
  rcases l with _ | ⟨a, _ | ⟨b, t⟩⟩
  · simp [sortByTime]
  · simp [sortByTime]
  · simp only [sortByTime, List.length_cons]
    rw [if_neg (by omega)]

/-- The warnings produced by sort_by_time are the adjacent-pair scan of the
sorted order, also when the early return for short lists fires. -/
theorem sortByTime_snd (l : List SRecord) :
    (sortByTime l).2 = overlapWarnings (sortByTime l).1 := by
  rcases l with _ | ⟨a, _ | ⟨b, t⟩⟩
  · simp [sortByTime, overlapWarnings]
  · simp [sortByTime, overlapWarnings]
  · simp only [sortByTime, List.length_cons]
    rw [if_neg (by omega)]

/-- Claim C6: sort_by_time is idempotent, an already-sorted aggregate is
left unchanged, after any application the records are in ascending order of
Start Time, and records with equal Start Time keep their original relative
order (the equal-key subsequence is preserved). -/
theorem sort_by_time_spec (l : List SRecord) :
    (sortByTime (sortByTime l).1).1 = (sortByTime l).1
    ∧ List.Pairwise (fun a b => a.startTime ≤ b.startTime) (sortByTime l).1
    ∧ (List.Pairwise (fun a b => a.startTime ≤ b.startTime) l →
        (sortByTime l).1 = l)
    ∧ ∀ t : Int, (sortByTime l).1.filter (fun r => r.startTime == t)
        = l.filter (fun r => r.startTime == t) := by
  have hsorted : List.Pairwise (fun a b => timeLe a b = true)
      (l.mergeSort timeLe) :=
    List.sorted_mergeSort timeLe_trans timeLe_total l
  refine ⟨?_, ?_, ?_, ?_⟩
  · rw [sortByTime_fst, sortByTime_fst]
    exact List.mergeSort_of_sorted hsorted
  · rw [sortByTime_fst]
    exact hsorted.imp (fun h => by
      simpa [timeLe, decide_eq_true_eq] using h)
  · intro hp
    rw [sortByTime_fst]
    exact List.mergeSort_of_sorted
      (hp.imp (fun h => by simp [timeLe, h]))
  · intro t
    rw [sortByTime_fst]
    have hpw : List.Pairwise (fun a b => timeLe a b = true)
        (l.filter (fun r => r.startTime == t)) := by
      refine List.pairwise_of_forall_mem_list (fun a ha b hb => ?_)
      have ha2 : a.startTime = t := by
        simpa using List.of_mem_filter ha
      have hb2 : b.startTime = t := by
        simpa using List.of_mem_filter hb
      simp [timeLe, ha2, hb2]
    have hsub : List.Sublist (l.filter (fun r => r.startTime == t))
        (l.mergeSort timeLe) :=
      List.sublist_mergeSort timeLe_trans timeLe_total hpw (List.filter_sublist l)
    have hfix : (l.filter (fun r => r.startTime == t)).filter
        (fun r => r.startTime == t) = l.filter (fun r => r.startTime == t) :=
      List.filter_eq_self.mpr (fun a ha => (List.mem_filter.mp ha).2)
    have hsub2 : List.Sublist (l.filter (fun r => r.startTime == t))
        ((l.mergeSort timeLe).filter (fun r => r.startTime == t)) := by
      have := hsub.filter (fun r => r.startTime == t)
      rwa [hfix] at this
    have hlen : ((l.mergeSort timeLe).filter
          (fun r => r.startTime == t)).length
        = (l.filter (fun r => r.startTime == t)).length :=
      ((List.mergeSort_perm l timeLe).filter
        (fun r => r.startTime == t)).length_eq
    exact (hsub2.eq_of_length hlen.symm).symm

def demoRecSorted1 : SRecord := ⟨3, 4, "a_SMPS.csv"⟩
def demoRecSorted2 : SRecord := ⟨5, 6, "b_SMPS.csv"⟩

/-- Witness for C6 at a concrete aggregate: an already-sorted two-record
aggregate is left unchanged, and sorting twice equals sorting once. -/
theorem sort_by_time_spec_witness :
    (sortByTime [demoRecSorted1, demoRecSorted2]).1
      = [demoRecSorted1, demoRecSorted2]
    ∧ (sortByTime (sortByTime [demoRecSorted2, demoRecSorted1]).1).1
      = (sortByTime [demoRecSorted2, demoRecSorted1]).1 := by
  constructor
  · exact (sort_by_time_spec [demoRecSorted1, demoRecSorted2]).2.2.1
      (by decide)
  · exact (sort_by_time_spec [demoRecSorted2, demoRecSorted1]).1

/-- Helper for C7: whenever adjacent entries of a list overlap, the
adjacent-pair scan emits the warning built from their filenames and the two
offending timestamps. -/
theorem overlapWarnings_mem (s : List SRecord) (i : Nat)
    (h : i + 1 < s.length)
    (hov : (s.get ⟨i, by omega⟩).endTime ≥ (s.get ⟨i + 1, h⟩).startTime) :
    (⟨(s.get ⟨i, by omega⟩).filename, (s.get ⟨i + 1, h⟩).filename,
      (s.get ⟨i, by omega⟩).endTime, (s.get ⟨i + 1, h⟩).startTime⟩ :
      OverlapWarning) ∈ overlapWarnings s := by
  induction s generalizing i with
  | nil => simp at h
  | cons a rest ih =>
    cases rest with
    | nil => simp at h
    | cons b t =>
      cases i with
      | zero =>
        simp only [List.get] at hov ⊢
        simp [overlapWarnings, hov]
      | succ j =>
        have h2 : j + 1 < (b :: t).length := by
          simpa using Nat.lt_of_succ_lt_succ h
        have step := ih j h2 (by
          simpa only [List.get] using hov)
        simp only [List.get]
        unfold overlapWarnings
        exact List.mem_append_right _ step

/-- Claim C7: after sort_by_time, every adjacent pair whose earlier record
ends at or after the later record starts produces a warning carrying both
source filenames and the offending timestamps, and the sorted record
sequence is a permutation of the original (nothing removed, merged or
rejected; the operation is a total function of the record list, so no
exception arises). -/
theorem sort_overlap_warning_spec (l : List SRecord) (i : Nat)
    (h : i + 1 < (sortByTime l).1.length)
    (hov : ((sortByTime l).1.get ⟨i, by omega⟩).endTime
      ≥ ((sortByTime l).1.get ⟨i + 1, h⟩).startTime) :
    (⟨((sortByTime l).1.get ⟨i, by omega⟩).filename,
      ((sortByTime l).1.get ⟨i + 1, h⟩).filename,
      ((sortByTime l).1.get ⟨i, by omega⟩).endTime,
      ((sortByTime l).1.get ⟨i + 1, h⟩).startTime⟩ : OverlapWarning)
      ∈ (sortByTime l).2
    ∧ (sortByTime l).1.Perm l := by
  constructor
  · rw [sortByTime_snd]
    exact overlapWarnings_mem (sortByTime l).1 i h hov
  · rw [sortByTime_fst]
    exact List.mergeSort_perm l timeLe

def demoRecOverlapA : SRecord := ⟨100, 600, "fileA_SMPS.csv"⟩
def demoRecOverlapB : SRecord := ⟨570, 900, "fileB_SMPS.csv"⟩

/-- Witness for C7 at the spec's example: record A ends at minute 600
(10:00) and record B starts at minute 570 (09:30) in nanosecond-scaled
units; after sorting, the warning naming both files and both timestamps is
emitted and both records remain. -/
theorem sort_overlap_warning_spec_witness :
    (⟨demoRecOverlapA.filename, demoRecOverlapB.filename,
      demoRecOverlapA.endTime, demoRecOverlapB.startTime⟩ : OverlapWarning)
      ∈ (sortByTime [demoRecOverlapA, demoRecOverlapB]).2
    ∧ (sortByTime [demoRecOverlapA, demoRecOverlapB]).1.Perm
        [demoRecOverlapA, demoRecOverlapB] := by
  have hlist : (sortByTime [demoRecOverlapA, demoRecOverlapB]).1
      = [demoRecOverlapA, demoRecOverlapB] := by
    rw [sortByTime_fst]
    exact List.mergeSort_of_sorted (by decide)
  have hlen : 0 + 1 < (sortByTime [demoRecOverlapA, demoRecOverlapB]).1.length := by
    rw [hlist]
    decide
  have e0 : (sortByTime [demoRecOverlapA, demoRecOverlapB]).1.get ⟨0, by omega⟩
      = demoRecOverlapA :=
    (List.get_of_eq hlist ⟨0, by omega⟩).trans rfl
  have e1 : (sortByTime [demoRecOverlapA, demoRecOverlapB]).1.get ⟨0 + 1, hlen⟩
      = demoRecOverlapB :=
    (List.get_of_eq hlist ⟨0 + 1, hlen⟩).trans rfl
  have hov : ((sortByTime [demoRecOverlapA, demoRecOverlapB]).1.get
        ⟨0, by omega⟩).endTime
      ≥ ((sortByTime [demoRecOverlapA, demoRecOverlapB]).1.get
        ⟨0 + 1, hlen⟩).startTime := by
    rw [e0, e1]
    decide
  have h := sort_overlap_warning_spec [demoRecOverlapA, demoRecOverlapB]
    0 hlen hov
  rw [e0, e1] at h
  exact h

/-! ## Characterizing the glob pattern -/

/-- A leading * wildcard matches exactly the splits whose remainder matches
the rest of the pattern. -/
theorem fnmatch_star (ps s : List Char) :
    fnmatchChars ('*' :: ps) s = true ↔
      ∃ s1 s2 : List Char, s = s1 ++ s2 ∧ fnmatchChars ps s2 = true := by
  induction s with
  | nil =>
    simp only [fnmatchChars, reduceIte]
    constructor
    · intro h
      exact ⟨[], [], rfl, h⟩
    · rintro ⟨s1, s2, hs, h2⟩
      obtain ⟨h1, h2n⟩ := List.append_eq_nil.mp hs.symm
      subst h1
      subst h2n
      exact h2
  | cons c s1 ih =>
    simp only [fnmatchChars, reduceIte, Bool.or_eq_true]
    constructor
    · rintro (h | h)
      · exact ⟨[], c :: s1, rfl, h⟩
      · obtain ⟨a, b, hab, hb⟩ := ih.mp h
        exact ⟨c :: a, b, by rw [List.cons_append, ← hab], hb⟩
    · rintro ⟨a, b, hab, hb⟩
      cases a with
      | nil =>
        left
        rw [List.nil_append] at hab
        rw [hab]
        exact hb
      | cons a0 a1 =>
        right
        rw [List.cons_append] at hab
        injection hab with hc ht
        exact ih.mpr ⟨a1, b, ht, hb⟩

/-- A literal pattern character matches exactly that character. -/
theorem fnmatch_lit (p : Char) (hp : ¬ p = '*') (ps s : List Char) :
    fnmatchChars (p :: ps) s = true ↔
      ∃ s1, s = p :: s1 ∧ fnmatchChars ps s1 = true := by
  cases s with
  | nil =>
    simp only [fnmatchChars, if_neg hp]
    constructor
    · intro h
      exact absurd h (by simp)
    · rintro ⟨s1, hs, _⟩
      exact absurd hs (by simp)
  | cons c s1 =>
    simp only [fnmatchChars, if_neg hp, Bool.and_eq_true, beq_iff_eq]
    constructor
    · rintro ⟨hpc, h⟩
      exact ⟨s1, by rw [hpc], h⟩
    · rintro ⟨s2, hs, h⟩
      injection hs with h1 h2
      subst h1
      subst h2
      exact ⟨rfl, h⟩

/-- A run of literal pattern characters matches exactly itself as a block. -/
theorem fnmatch_lits (w : List Char) (hw : ∀ c ∈ w, ¬ c = '*')
    (ps s : List Char) :
    fnmatchChars (w ++ ps) s = true ↔
      ∃ s1, s = w ++ s1 ∧ fnmatchChars ps s1 = true := by
  induction w generalizing s with
  | nil => simp
  | cons c w ih =>
    rw [List.cons_append,
      fnmatch_lit c (hw c (List.mem_cons_self c w)) (w ++ ps) s]
    constructor
    · rintro ⟨s1, hs, h⟩
      obtain ⟨s2, hs2, h2⟩ :=
        (ih (fun d hd => hw d (List.mem_cons_of_mem c hd)) s1).mp h
      exact ⟨s2, by rw [hs, hs2, List.cons_append], h2⟩
    · rintro ⟨s2, hs, h2⟩
      refine ⟨w ++ s2, by simpa using hs, ?_⟩
      exact (ih (fun d hd => hw d (List.mem_cons_of_mem c hd)) (w ++ s2)).mpr
        ⟨s2, rfl, h2⟩

/-- The pattern *SMPS*.csv matches exactly the names that decompose as
some characters, then SMPS, then some characters, then the .csv tail. -/
theorem fnmatch_smps_iff (s : List Char) :
    fnmatchChars SMPS_PATTERN s = true ↔
      ∃ a b : List Char, s = a ++ SMPS_CHARS ++ b ++ CSV_CHARS := by
  have hpat : SMPS_PATTERN = '*' :: (SMPS_CHARS ++ ('*' :: CSV_CHARS)) := by
    decide
  rw [hpat, fnmatch_star]
  constructor
  · rintro ⟨s1, s2, hs, h2⟩
    rw [fnmatch_lits SMPS_CHARS (by decide) ('*' :: CSV_CHARS) s2] at h2
    obtain ⟨s3, hs3, h3⟩ := h2
    rw [fnmatch_star] at h3
    obtain ⟨u, v, huv, hv⟩ := h3
    have hveq : v = CSV_CHARS := by
      rw [show (CSV_CHARS : List Char) = CSV_CHARS ++ [] from by simp] at hv
      rw [fnmatch_lits CSV_CHARS (by decide) [] v] at hv
      obtain ⟨s4, hs4, h4⟩ := hv
      have h40 : s4 = [] := by
        simpa [fnmatchChars, List.isEmpty_iff] using h4
      rw [hs4, h40]
      simp
    exact ⟨s1, u, by rw [hs, hs3, huv, hveq]; simp [List.append_assoc]⟩
  · rintro ⟨a, b, rfl⟩
    refine ⟨a, SMPS_CHARS ++ b ++ CSV_CHARS, by simp [List.append_assoc], ?_⟩
    rw [fnmatch_lits SMPS_CHARS (by decide) ('*' :: CSV_CHARS) _]
    refine ⟨b ++ CSV_CHARS, by simp [List.append_assoc], ?_⟩
    rw [fnmatch_star]
    refine ⟨b, CSV_CHARS, rfl, ?_⟩
    rw [show (CSV_CHARS : List Char) = CSV_CHARS ++ [] from by simp]
    rw [fnmatch_lits CSV_CHARS (by decide) [] _]
    exact ⟨[], by simp, by simp [fnmatchChars]⟩

/-- The decomposition is exactly the claim predicate, contains SMPS and ends
with .csv: an occurrence of SMPS cannot straddle the final .csv because the
two strings share no characters, so the conjunction forces the
decomposition. -/
theorem smps_decomp_iff (s : List Char) :
    (∃ a b : List Char, s = a ++ SMPS_CHARS ++ b ++ CSV_CHARS) ↔
      (SMPS_CHARS <:+: s ∧ CSV_CHARS <:+ s) := by
  constructor
  · rintro ⟨a, b, rfl⟩
    exact ⟨⟨a, b ++ CSV_CHARS, by simp [List.append_assoc]⟩,
      ⟨a ++ SMPS_CHARS ++ b, by simp [List.append_assoc]⟩⟩
  · rintro ⟨hinf, hsuf⟩
    obtain ⟨a, t, hat⟩ := hinf
    rcases le_or_lt 4 t.length with h4 | h4
    · have hts : t <:+ s := ⟨a ++ SMPS_CHARS, by rw [← hat]⟩
      rcases List.suffix_or_suffix_of_suffix hsuf hts with hc | hc
      · obtain ⟨b, hb⟩ := hc
        exact ⟨a, b, by rw [← hat, ← hb]; simp⟩
      · have ht4 : t = CSV_CHARS :=
          hc.eq_of_length_le (by simpa [CSV_CHARS] using h4)
        exact ⟨a, [], by rw [← hat, ht4]; simp⟩
    · exfalso
      have hst : (SMPS_CHARS ++ t) <:+ s := ⟨a, by rw [← hat]; simp⟩
      rcases List.suffix_or_suffix_of_suffix hsuf hst with hc | hc
      · obtain ⟨w, hw⟩ := hc
        have hwlen : w.length = t.length := by
          have hl := congrArg List.length hw
          simp [SMPS_CHARS, CSV_CHARS] at hl
          omega
        have e2 : (w ++ CSV_CHARS)[w.length]? = some '.' := by
          rw [List.getElem?_append_right (le_refl w.length)]
          simp [CSV_CHARS]
        rw [hw] at e2
        have hlt : w.length < SMPS_CHARS.length := by
          simp [SMPS_CHARS]
          omega
        rw [List.getElem?_append_left hlt] at e2
        have hw3 : w.length = 0 ∨ w.length = 1 ∨ w.length = 2 ∨ w.length = 3 := by
          simp [SMPS_CHARS] at hlt
          omega
        rcases hw3 with h | h | h | h <;> rw [h] at e2 <;>
          exact absurd e2 (by decide)
      · have ht0 : t = [] := by
          have hlen : (SMPS_CHARS ++ t).length ≤ CSV_CHARS.length :=
            hc.length_le
          rw [List.length_append] at hlen
          rw [show SMPS_CHARS.length = 4 from by decide,
            show CSV_CHARS.length = 4 from by decide] at hlen
          exact List.eq_nil_of_length_eq_zero (by omega)
        subst ht0
        have heq2 : SMPS_CHARS ++ ([] : List Char) = CSV_CHARS :=
          hc.eq_of_length_le (by simp [SMPS_CHARS, CSV_CHARS])
        simp [SMPS_CHARS, CSV_CHARS] at heq2

/-- The glob selection agrees with the amended claim predicate on every
name: non-hidden, contains SMPS, ends with .csv. -/
theorem globMatch_iff (name : List Char) :
    globMatchSMPS name = amendedMatchSMPS name := by
  rcases name with _ | ⟨c, cs⟩
  · have hl : fnmatchChars SMPS_PATTERN [] = false := by
      rcases hb : fnmatchChars SMPS_PATTERN [] with _ | _
      · rfl
      · exfalso
        obtain ⟨a, b, hab⟩ := (fnmatch_smps_iff []).mp hb
        have hlen2 := congrArg List.length hab
        rw [List.length_nil, List.length_append, List.length_append,
          List.length_append,
          show SMPS_CHARS.length = 4 from by decide,
          show CSV_CHARS.length = 4 from by decide] at hlen2
        omega
    simp only [globMatchSMPS, hl, amendedMatchSMPS, isHiddenName]
    rw [show claimMatchesSMPS [] = false from by decide]
    rfl
  · by_cases hdot : c = '.'
    · subst hdot
      simp [globMatchSMPS, amendedMatchSMPS, isHiddenName]
    · have hcb : (c = '.' : Bool) = false := by simpa using hdot
      simp only [globMatchSMPS, if_neg hdot, amendedMatchSMPS, isHiddenName,
        hcb, Bool.not_false, Bool.true_and]
      rcases hb : fnmatchChars SMPS_PATTERN (c :: cs) with _ | _
      · rcases hcm : claimMatchesSMPS (c :: cs) with _ | _
        · rfl
        · have hd : SMPS_CHARS <:+: (c :: cs) ∧ CSV_CHARS <:+ (c :: cs) := by
            simpa [claimMatchesSMPS, Bool.and_eq_true, decide_eq_true_eq]
              using hcm
          have : fnmatchChars SMPS_PATTERN (c :: cs) = true :=
            (fnmatch_smps_iff (c :: cs)).mpr ((smps_decomp_iff (c :: cs)).mpr hd)
          rw [hb] at this
          exact absurd this (by simp)
      · have hd := (smps_decomp_iff (c :: cs)).mp
          ((fnmatch_smps_iff (c :: cs)).mp hb)
        symm
        simp [claimMatchesSMPS, hd.1, hd.2]

/-- The glob filter selects the same files as the amended predicate. -/
theorem filter_glob_eq_amended (names : List (List Char)) :
    names.filter globMatchSMPS = names.filter amendedMatchSMPS :=
  List.filter_congr (fun n _ => globMatch_iff n)

theorem nameLe_trans : ∀ a b c : List Char,
    decide (a ≤ b) → decide (b ≤ c) → decide (a ≤ c) := by
  intro a b c h1 h2
  simp only [decide_eq_true_eq] at *
  exact le_trans h1 h2

theorem nameLe_total : ∀ a b : List Char,
    decide (a ≤ b) || decide (b ≤ a) := by
  intro a b
  rcases le_total a b with h | h <;> simp [h]

/-- Claim C1 as amended: read_from_dir yields a Dataset Aggregate whose
record sequence, as exposed by len and indexed access, contains exactly one
Record per non-hidden file in the directory (name not beginning with a dot)
whose name contains SMPS and ends with .csv, ordered lexicographically by
filename.  parse ranges over arbitrary per-file parse results, and every
candidate path shares the directory prefix, so sorting paths is sorting
basenames. -/
theorem read_from_dir_amended (R : Type) (parse : List Char → R)
    (names : List (List Char)) :
    (SMPSDataset_read_from_dir parse names).pyLen
      = (names.filter amendedMatchSMPS).length
    ∧ (∀ i : Nat, (SMPSDataset_read_from_dir parse names).pyGet i
        = (((names.filter amendedMatchSMPS).mergeSort
            (fun a b => decide (a ≤ b))).map parse).get? i)
    ∧ List.Pairwise (fun a b : List Char => a ≤ b)
        ((names.filter amendedMatchSMPS).mergeSort
          (fun a b => decide (a ≤ b)))
    ∧ ((names.filter amendedMatchSMPS).mergeSort
        (fun a b => decide (a ≤ b))).Perm (names.filter amendedMatchSMPS) := by
  have e1 : listRecordNames names
      = (names.filter amendedMatchSMPS).mergeSort
          (fun a b => decide (a ≤ b)) := by
    unfold listRecordNames
    rw [filter_glob_eq_amended]
  refine ⟨?_, ?_, ?_, ?_⟩
  · show ((listRecordNames names).map parse).length = _
    rw [e1, List.length_map, List.length_mergeSort]
  · intro i
    show ((listRecordNames names).map parse).get? i = _
    rw [e1]
  · have hs := List.sorted_mergeSort nameLe_trans nameLe_total
      (names.filter amendedMatchSMPS)
    exact hs.imp (fun h => by simpa using h)
  · exact List.mergeSort_perm _ _

def hiddenDemoName : List Char :=
  ['.', 'a', 'S', 'M', 'P', 'S', '.', 'c', 's', 'v']

/-- Claim C1, counterexample: the hidden file .aSMPS.csv contains SMPS and
ends with .csv, yet the directory loader yields a dataset with zero records
for a directory holding exactly that file, because the glob wildcard never
matches a leading dot. -/
theorem read_from_dir_hidden_file_counterexample :
    claimMatchesSMPS hiddenDemoName = true
    ∧ (SMPSDataset_read_from_dir (fun n => n) [hiddenDemoName]).pyLen = 0 := by
  constructor
  · decide
  · show ((listRecordNames [hiddenDemoName]).map (fun n => n)).length = 0
    unfold listRecordNames
    rw [show List.filter globMatchSMPS [hiddenDemoName] = [] from rfl]
    simp

end CrSmps
